import Mathlib

/-!
Verification of the POS transaction and reconciliation engine
(`src/services/storage.ts`, `src/pages/Ledger.tsx`, `src/pages/Billing.tsx`).

Modelling conventions:
* JavaScript `number` values are modelled exactly: monetary amounts as `ℚ`,
  stock counts and deltas as `ℤ`, line quantities as `ℕ`.
* Calendar dates appear in the source as ISO `YYYY-MM-DD` strings, on which
  the lexicographic string order used by `getLedgerEntry`'s `l.date < date`
  test and the chronological order used by its `new Date(...)` sort
  comparator coincide; dates are therefore modelled as `ℕ` carrying that
  common order.
* `localStorage` is modelled as an explicit `StoreState` record holding the
  five persisted collections; each storage operation is a function from
  state to state.
* `crypto.randomUUID()` is modelled by passing the freshly generated id as
  an explicit argument.
-/

namespace POS

/-- The `PaymentMode` enum of `types.ts` (staged at the tail of
`src/unnamed/part_002`): CASH | CREDIT | UPI | MIXED, each member carrying
its own name as string value. -/
inductive PaymentMode where
  | CASH
  | CREDIT
  | UPI
  | MIXED
deriving DecidableEq, Repr

/-- The `Bill.status` string union of `types.ts` (staged at the tail of
`src/unnamed/part_002`): 'PAID' | 'CREDIT' | 'PARTIAL' | 'CANCELLED'. -/
inductive BillStatus where
  | PAID
  | CREDIT
  | PARTIAL
  | CANCELLED
deriving DecidableEq, Repr

/-- The `KhataEntry.type` string union of `types.ts` (staged at the tail of
`src/unnamed/part_002`): 'DEBIT' | 'CREDIT' — DEBIT = customer owes,
CREDIT = customer paid. -/
inductive KhataType where
  | DEBIT
  | CREDIT
deriving DecidableEq, Repr

/-- Product record (`types.ts`; the fields used by `storage.ts` and the
pages). -/
structure Product where
  id : String
  name : String
  code : String
  purchasePrice : ℚ
  sellingPrice : ℚ
  stock : ℤ
  gstPercent : ℚ
  gstIncluded : Bool
deriving DecidableEq, Repr

/-- Cart line (`types.ts`: `CartItem extends Product` plus `qty` and a
per-line `discount`; the Billing page builds these as
`{ ...product, qty, discount }`). -/
structure CartItem where
  id : String
  name : String
  sellingPrice : ℚ
  qty : ℕ
  discount : ℚ
  gstPercent : ℚ
  gstIncluded : Bool
deriving DecidableEq, Repr

structure Customer where
  id : String
  name : String
  mobile : String
deriving DecidableEq, Repr

structure Bill where
  id : String
  date : ℕ
  items : List CartItem
  subtotal : ℚ
  totalGst : ℚ
  totalDiscount : ℚ
  grandTotal : ℚ
  paymentMode : PaymentMode
  customerId : Option String
  cashAmount : Option ℚ
  upiAmount : Option ℚ
  status : BillStatus
deriving DecidableEq, Repr

structure KhataEntry where
  id : String
  billId : Option String
  customerId : String
  amount : ℚ
  type : KhataType
  date : ℕ
  description : String
deriving DecidableEq, Repr

structure LedgerEntry where
  date : ℕ
  openingBalance : ℚ
  grossSales : ℚ
  onlineSales : ℚ
  creditSales : ℚ
  expenses : ℚ
  expectedCash : ℚ
  actualCash : ℚ
  difference : ℚ
  depositedToBank : ℚ
  closingBalance : ℚ
  isClosed : Bool
  isAutoMode : Bool
  notes : Option String
deriving DecidableEq, Repr

/-- The five persisted collections of `storage.ts` (`KEYS`). -/
structure StoreState where
  products : List Product
  bills : List Bill
  customers : List Customer
  khata : List KhataEntry
  ledger : List LedgerEntry
deriving DecidableEq, Repr

/-- `saveCustomer` (storage.ts:50-59): replace the first customer with a
matching id, else append. -/
def saveCustomer (c : Customer) : List Customer → List Customer
  | [] => [c]
  | x :: xs => if x.id = c.id then c :: xs else x :: saveCustomer c xs

/-- The inventory-update step shared by `saveBill` (storage.ts:70-75,
`products[pIndex].stock -= item.qty` on the first index matching the item id,
no-op when `findIndex` misses) and `cancelBill` (storage.ts:117-122, `+=`).
The spec calls this `adjustStock(id, deltaQty)` (§4.1). -/
def adjustStock (id : String) (delta : ℤ) : List Product → List Product
  | [] => []
  | p :: ps =>
    if p.id = id then { p with stock := p.stock + delta } :: ps
    else p :: adjustStock id delta ps

/-- `bill.items.forEach` loop of `saveBill` step 2: subtract each line's
quantity from the matching product's stock. -/
def applyItemsSale (ps : List Product) (items : List CartItem) : List Product :=
  items.foldl (fun acc it => adjustStock it.id (-(it.qty : ℤ)) acc) ps

/-- `bill.items.forEach` loop of `cancelBill` step 2: add each line's
quantity back to the matching product's stock. -/
def applyItemsCancel (ps : List Product) (items : List CartItem) : List Product :=
  items.foldl (fun acc it => adjustStock it.id ((it.qty : ℤ)) acc) ps

/-- The khata DEBIT entry pushed by `saveBill` step 4 (storage.ts:87-95);
`kid` stands for the generated `crypto.randomUUID()`. -/
def saleDebitEntry (kid : String) (bill : Bill) (customer : Customer) : KhataEntry :=
  { id := kid
    billId := some bill.id
    customerId := customer.id
    amount := bill.grandTotal
    type := KhataType.DEBIT
    date := bill.date
    description := "Bill #" ++ bill.id.take 8 }

/-- `saveBill` (storage.ts:62-98).  Returns the state after the call together
with a flag that is `true` exactly when the call threw
`"Customer required for credit"`.  The source performs its steps in order —
1 save bill, 2 update inventory, 3 save customer, 4 khata — so when the
step-4 guard throws, the mutations of steps 1–3 have already been persisted. -/
def saveBill (s : StoreState) (bill : Bill) (customer : Option Customer)
    (kid : String) : StoreState × Bool :=
  let bills := s.bills ++ [bill]
  let products := applyItemsSale s.products bill.items
  let customers :=
    match customer with
    | some c => saveCustomer c s.customers
    | none => s.customers
  if bill.paymentMode = PaymentMode.CREDIT ∨ bill.status = BillStatus.CREDIT then
    match customer with
    | none =>
      ({ s with bills := bills, products := products, customers := customers }, true)
    | some c =>
      ({ s with bills := bills, products := products, customers := customers
              , khata := s.khata ++ [saleDebitEntry kid bill c] }, false)
  else
    ({ s with bills := bills, products := products, customers := customers }, false)

/-- `bills[billIndex] = bill` after `findIndex`: replace the first bill whose
id matches. -/
def replaceFirstBill (billId : String) (newBill : Bill) : List Bill → List Bill
  | [] => []
  | b :: bs =>
    if b.id = billId then newBill :: bs else b :: replaceFirstBill billId newBill bs

/-- `cancelBill` (storage.ts:102-133): no-op when the bill is absent or
already CANCELLED; otherwise mark it CANCELLED, restore inventory, and if the
payment mode was CREDIT remove every khata entry whose `billId` matches. -/
def cancelBill (s : StoreState) (billId : String) : StoreState :=
  match s.bills.find? (fun b => b.id = billId) with
  | none => s
  | some bill =>
    if bill.status = BillStatus.CANCELLED then s
    else
      let cancelled := { bill with status := BillStatus.CANCELLED }
      let bills := replaceFirstBill billId cancelled s.bills
      let products := applyItemsCancel s.products bill.items
      let khata :=
        if bill.paymentMode = PaymentMode.CREDIT then
          s.khata.filter (fun k => k.billId ≠ some billId)
        else s.khata
      { s with bills := bills, products := products, khata := khata }

/-- `addKhataPayment` (storage.ts:138-149): append a CREDIT ("payment
received") entry carrying no `billId`. -/
def addKhataPayment (s : StoreState) (customerId : String) (amount : ℚ)
    (date : ℕ) (kid : String) : StoreState :=
  { s with khata := s.khata ++
      [{ id := kid, billId := none, customerId := customerId, amount := amount
         , type := KhataType.CREDIT, date := date
         , description := "Payment Received" }] }

/-- Per-customer khata balance as computed by `calculateBalances` in the
Khata page: Σ DEBIT amounts − Σ CREDIT amounts over the customer's entries. -/
def balanceFor (khata : List KhataEntry) (customerId : String) : ℚ :=
  khata.foldl
    (fun acc k =>
      if k.customerId = customerId then
        if k.type = KhataType.DEBIT then acc + k.amount else acc - k.amount
      else acc) 0

/-- `saveLedgerDay` (storage.ts:207-211): drop any stored row with the same
date, then append the new entry. -/
def saveLedgerDay (ledger : List LedgerEntry) (entry : LedgerEntry) :
    List LedgerEntry :=
  (ledger.filter (fun l => l.date ≠ entry.date)) ++ [entry]

/-- Descending-date comparison used by `getLedgerEntry`'s sort
(`(a, b) => new Date(b.date).getTime() - new Date(a.date).getTime()`). -/
def ledgerDescOrder (a b : LedgerEntry) : Prop := b.date ≤ a.date

instance : DecidableRel ledgerDescOrder := fun a b => by
  unfold ledgerDescOrder; infer_instance

instance : IsTotal LedgerEntry ledgerDescOrder :=
  ⟨fun a b => le_total b.date a.date⟩

instance : IsTrans LedgerEntry ledgerDescOrder :=
  ⟨fun _ _ _ h1 h2 => le_trans h2 h1⟩

/-- `ledger.sort((a, b) => new Date(b.date).getTime() - new Date(a.date).getTime())`:
sort the stored rows by date descending. -/
def sortByDateDesc (ledger : List LedgerEntry) : List LedgerEntry :=
  ledger.insertionSort ledgerDescOrder

/-- `getLedgerEntry` (storage.ts:173-200): return the stored row for the date
verbatim when one exists; otherwise synthesize a fresh unstored row whose
opening balance is the closing balance of the latest stored row with an
earlier date (0 when there is none). -/
def getLedgerEntry (ledger : List LedgerEntry) (date : ℕ) : LedgerEntry :=
  match ledger.find? (fun l => l.date = date) with
  | some existingEntry => existingEntry
  | none =>
    let sorted := sortByDateDesc ledger
    let lastEntry := sorted.find? (fun l => l.date < date)
    let openingBalance :=
      match lastEntry with
      | some e => e.closingBalance
      | none => 0
    { date := date
      openingBalance := openingBalance
      grossSales := 0
      onlineSales := 0
      creditSales := 0
      expenses := 0
      expectedCash := 0
      actualCash := 0
      difference := 0
      depositedToBank := 0
      closingBalance := 0
      isClosed := false
      isAutoMode := true
      notes := none }

/-- The `closingEntry` record literal built by `handleCloseDay`
(`Ledger.tsx:159-177`) from the current input values: `currentOpening`,
`currentGross`, `currentOnline`, `currentCredit`, `currentExpenses` are the
parsed form inputs (auto-fetched or manually edited), `actualCashVal` and
`bankDepositVal` the parsed cash count and bank deposit.  Mirrors the
component's derived values (`Ledger.tsx:138-150`):
`expectedCash = (opening + gross) − (online + credit + expenses)`,
`adjustedClosingCash = actualCash − bankDeposit`,
`difference = actualCash − expectedCash`. -/
def closingEntry (todayLedger : LedgerEntry) (selectedDate : ℕ)
    (currentOpening currentGross currentOnline currentCredit currentExpenses : ℚ)
    (actualCashVal bankDepositVal : ℚ) (notes : Option String)
    (isAutoMode : Bool) : LedgerEntry :=
  let totalDeductions := currentOnline + currentCredit + currentExpenses
  let expectedCash := (currentOpening + currentGross) - totalDeductions
  let adjustedClosingCash := actualCashVal - bankDepositVal
  let difference := actualCashVal - expectedCash
  { todayLedger with
      date := selectedDate
      openingBalance := currentOpening
      grossSales := currentGross
      onlineSales := currentOnline
      creditSales := currentCredit
      expenses := currentExpenses
      expectedCash := expectedCash
      actualCash := actualCashVal
      depositedToBank := bankDepositVal
      closingBalance := adjustedClosingCash
      difference := difference
      isClosed := true
      isAutoMode := isAutoMode
      notes := notes }

/-- `handleCloseDay` (`Ledger.tsx:154-182`) acting on the stored ledger
collection.  `actualCashEmpty` models the `inputs.actualCash === ''` guard
(the raw text field being empty).  Validation failures return the ledger
unchanged (the source only alerts); on success the closing entry is
persisted through `saveLedgerDay`. -/
def handleCloseDay (ledger : List LedgerEntry) (todayLedger : LedgerEntry)
    (selectedDate : ℕ)
    (currentOpening currentGross currentOnline currentCredit currentExpenses : ℚ)
    (actualCashEmpty : Bool) (actualCashVal bankDepositVal : ℚ)
    (notes : Option String) (isAutoMode : Bool) : List LedgerEntry :=
  if actualCashEmpty then ledger
  else if actualCashVal < bankDepositVal then ledger
  else
    saveLedgerDay ledger
      (closingEntry todayLedger selectedDate currentOpening currentGross
        currentOnline currentCredit currentExpenses actualCashVal
        bankDepositVal notes isAutoMode)

/-- `Math.round` as used for `grandTotal` (`Billing.tsx`, calculateTotals):
JavaScript rounds half toward positive infinity, i.e. `⌊x + 1/2⌋`. -/
def jsRound (x : ℚ) : ℤ := ⌊x + (1 : ℚ) / 2⌋

/-- `calculateTotals` (`Billing.tsx:1028-1064` of the bundled sources):
fold over the cart accumulating taxable value, GST and discount, with the
per-line tax split depending on whether the price is tax-inclusive. -/
def totalsStep (acc : ℚ × ℚ × ℚ) (item : CartItem) : ℚ × ℚ × ℚ :=
  let qty : ℚ := item.qty
  let price := item.sellingPrice
  let rate := item.gstPercent
  let isIncluded := item.gstIncluded
  let totalValue := price * qty
  let itemTaxable :=
    if isIncluded then totalValue / (1 + rate / 100) else price * qty
  let itemTax :=
    if isIncluded then totalValue - totalValue / (1 + rate / 100)
    else (price * qty) * (rate / 100)
  (acc.1 + itemTaxable, acc.2.1 + itemTax, acc.2.2 + item.discount)

def calculateTotals (cart : List CartItem) : ℚ × ℚ × ℚ × ℤ :=
  let acc := cart.foldl totalsStep (0, 0, 0)
  (acc.1, acc.2.1, acc.2.2, jsRound (acc.1 + acc.2.1 - acc.2.2))

/-- Spec-side per-line taxable value, written from the claim's words
("taxable = P*q/(1 + r/100) when the price is tax-inclusive, else
taxable = P*q"), for comparison against `calculateTotals`. -/
def specLineTaxable (item : CartItem) : ℚ :=
  if item.gstIncluded then
    item.sellingPrice * item.qty / (1 + item.gstPercent / 100)
  else item.sellingPrice * item.qty

/-- Spec-side per-line tax ("tax = P*q − taxable when tax-inclusive, else
tax = taxable*r/100"), for comparison against `calculateTotals`. -/
def specLineTax (item : CartItem) : ℚ :=
  if item.gstIncluded then
    item.sellingPrice * item.qty - specLineTaxable item
  else specLineTaxable item * (item.gstPercent / 100)

/-! ### Concrete sample data (used by counterexamples and witnesses) -/

/-- An all-zero ledger entry, as the unclosed "today" rows start out. -/
def blankEntry : LedgerEntry :=
  { date := 0, openingBalance := 0, grossSales := 0, onlineSales := 0
    , creditSales := 0, expenses := 0, expectedCash := 0, actualCash := 0
    , difference := 0, depositedToBank := 0, closingBalance := 0
    , isClosed := false, isAutoMode := true, notes := none }

def emptyState : StoreState :=
  { products := [], bills := [], customers := [], khata := [], ledger := [] }

def sampleProduct : Product :=
  { id := "P1", name := "Paracetamol", code := "PC1", purchasePrice := 40
    , sellingPrice := 50, stock := 5, gstPercent := 0, gstIncluded := false }

def sampleItem : CartItem :=
  { id := "P1", name := "Paracetamol", sellingPrice := 50, qty := 2
    , discount := 0, gstPercent := 0, gstIncluded := false }

/-- A cart line whose tax-inclusive price 118 at 18% GST splits into
taxable 100 and tax 18 (spec §8 scenario 1). -/
def inclusiveItem : CartItem :=
  { id := "P3", name := "Tonic", sellingPrice := 118, qty := 1
    , discount := 0, gstPercent := 18, gstIncluded := true }

def c1State : StoreState :=
  { products := [sampleProduct], bills := [], customers := [], khata := []
    , ledger := [] }

/-- A CREDIT sale recorded with no customer argument. -/
def c1Bill : Bill :=
  { id := "B1", date := 1, items := [sampleItem], subtotal := 100
    , totalGst := 0, totalDiscount := 0, grandTotal := 100
    , paymentMode := PaymentMode.CREDIT, customerId := none
    , cashAmount := none, upiAmount := none, status := BillStatus.CREDIT }

def asha : Customer := { id := "CU1", name := "Asha", mobile := "9000000000" }

/-- A CREDIT sale of 500 to customer `asha` (spec §8 scenario 2). -/
def creditBill : Bill :=
  { id := "B1", date := 1, items := [], subtotal := 500, totalGst := 0
    , totalDiscount := 0, grandTotal := 500
    , paymentMode := PaymentMode.CREDIT, customerId := some "CU1"
    , cashAmount := none, upiAmount := none, status := BillStatus.CREDIT }

/-- History for claim C8: a credit sale of 500 to `asha`, then a khata
payment of 500, before any cancellation. -/
def overpayState : StoreState :=
  addKhataPayment (saveBill emptyState creditBill (some asha) "K1").1
    "CU1" 500 1 "K2"

/-- A product with a single unit in stock. -/
def negProduct : Product :=
  { id := "P2", name := "Syrup", code := "SY1", purchasePrice := 80
    , sellingPrice := 100, stock := 1, gstPercent := 0, gstIncluded := false }

def negItem : CartItem :=
  { id := "P2", name := "Syrup", sellingPrice := 100, qty := 2
    , discount := 0, gstPercent := 0, gstIncluded := false }

def negState : StoreState :=
  { products := [negProduct], bills := [], customers := [], khata := []
    , ledger := [] }

/-- A CASH sale of two units of `negProduct`, of which only one is in
stock. -/
def negBill : Bill :=
  { id := "B2", date := 1, items := [negItem], subtotal := 200, totalGst := 0
    , totalDiscount := 0, grandTotal := 200, paymentMode := PaymentMode.CASH
    , customerId := none, cashAmount := none, upiAmount := none
    , status := BillStatus.PAID }

/-- A bill whose `status` field is CREDIT while its payment mode is CASH
(claim C10's trigger asymmetry). -/
def statusCreditBill : Bill :=
  { id := "B3", date := 1, items := [], subtotal := 300, totalGst := 0
    , totalDiscount := 0, grandTotal := 300, paymentMode := PaymentMode.CASH
    , customerId := some "CU1", cashAmount := none, upiAmount := none
    , status := BillStatus.CREDIT }

/-- A closed ledger row for date 1 carrying closing balance 30. -/
def closedA : LedgerEntry :=
  { blankEntry with date := 1, closingBalance := 30, isClosed := true }

/-- A closed ledger row for date 3 carrying closing balance 50. -/
def closedB : LedgerEntry :=
  { blankEntry with date := 3, closingBalance := 50, isClosed := true }

/-! ### Helper lemmas about the ledger operations -/

theorem sortByDateDesc_perm (l : List LedgerEntry) :
    List.Perm (sortByDateDesc l) l :=
  List.perm_insertionSort _ l

theorem sortByDateDesc_sorted (l : List LedgerEntry) :
    List.Sorted ledgerDescOrder (sortByDateDesc l) :=
  List.sorted_insertionSort _ l

/-- In a list sorted by descending date, `find?` for "date earlier than `D`"
returns an element of maximal date among those earlier than `D`. -/
theorem find?_lt_isMax {l : List LedgerEntry} {D : ℕ} {e : LedgerEntry}
    (hs : List.Sorted ledgerDescOrder l)
    (h : l.find? (fun x => x.date < D) = some e) :
    e.date < D ∧ ∀ x ∈ l, x.date < D → x.date ≤ e.date := by
  induction l with
  | nil => simp at h
  | cons a t ih =>
    rw [List.sorted_cons] at hs
    by_cases ha : a.date < D
    · rw [List.find?_cons_of_pos _ (by simpa using ha)] at h
      cases h
      refine ⟨ha, ?_⟩
      intro x hx _
      rcases List.mem_cons.mp hx with rfl | hx
      · exact le_refl _
      · exact hs.1 x hx
    · rw [List.find?_cons_of_neg _ (by simpa using ha)] at h
      obtain ⟨he, hmax⟩ := ih hs.2 h
      refine ⟨he, ?_⟩
      intro x hx hxD
      rcases List.mem_cons.mp hx with rfl | hx
      · exact absurd hxD ha
      · exact hmax x hx hxD

theorem find?_none_of_dates_ne {ledger : List LedgerEntry} {D : ℕ}
    (hnone : ∀ e ∈ ledger, e.date ≠ D) :
    ledger.find? (fun l => l.date = D) = none :=
  List.find?_eq_none.mpr fun x hx => by simpa using hnone x hx

/-- The stored-row branch of `getLedgerEntry`: when a row for the date is
stored, it is returned verbatim. -/
theorem getLedgerEntry_stored {ledger : List LedgerEntry} {D : ℕ}
    {e : LedgerEntry} (h : ledger.find? (fun l => l.date = D) = some e) :
    getLedgerEntry ledger D = e := by
  unfold getLedgerEntry
  rw [h]

theorem replaceFirstBill_length (billId : String) (nb : Bill) :
    ∀ bills : List Bill, (replaceFirstBill billId nb bills).length = bills.length := by
  intro bills
  induction bills with
  | nil => rfl
  | cons b bs ih =>
    by_cases hb : b.id = billId
    · simp [replaceFirstBill, hb]
    · simp [replaceFirstBill, hb, ih]

theorem find?_replaceFirstBill {billId : String} {nb : Bill}
    (hnb : nb.id = billId) :
    ∀ {bills : List Bill} {b : Bill},
      bills.find? (fun x => x.id = billId) = some b →
      (replaceFirstBill billId nb bills).find? (fun x => x.id = billId) = some nb := by
  intro bills
  induction bills with
  | nil => intro b h; simp at h
  | cons x xs ih =>
    intro b h
    by_cases hx : x.id = billId
    · simp only [replaceFirstBill, if_pos hx]
      exact List.find?_cons_of_pos _ (by simpa using hnb)
    · rw [List.find?_cons_of_neg _ (by simpa using hx)] at h
      simp only [replaceFirstBill, if_neg hx]
      rw [List.find?_cons_of_neg _ (by simpa using hx)]
      exact ih h

/-! ### Helper lemmas about `saveBill` and `cancelBill` -/

theorem saveBill_bills (s : StoreState) (bill : Bill) (customer : Option Customer)
    (kid : String) : (saveBill s bill customer kid).1.bills = s.bills ++ [bill] := by
  unfold saveBill
  cases customer <;> dsimp only <;> split <;> rfl

theorem saveBill_products (s : StoreState) (bill : Bill)
    (customer : Option Customer) (kid : String) :
    (saveBill s bill customer kid).1.products = applyItemsSale s.products bill.items := by
  unfold saveBill
  cases customer <;> dsimp only <;> split <;> rfl

theorem saveBill_ledger (s : StoreState) (bill : Bill) (customer : Option Customer)
    (kid : String) : (saveBill s bill customer kid).1.ledger = s.ledger := by
  unfold saveBill
  cases customer <;> dsimp only <;> split <;> rfl

theorem saveBill_none_customers (s : StoreState) (bill : Bill) (kid : String) :
    (saveBill s bill none kid).1.customers = s.customers := by
  unfold saveBill
  dsimp only
  split <;> rfl

theorem saveBill_none_khata (s : StoreState) (bill : Bill) (kid : String) :
    (saveBill s bill none kid).1.khata = s.khata := by
  unfold saveBill
  dsimp only
  split <;> rfl

/-- The khata step of `saveBill` when a customer is supplied: the DEBIT entry
is appended exactly when the bill's payment mode or status is CREDIT. -/
theorem saveBill_some_khata (s : StoreState) (bill : Bill) (c : Customer)
    (kid : String) :
    (saveBill s bill (some c) kid).1.khata =
      (if bill.paymentMode = PaymentMode.CREDIT ∨ bill.status = BillStatus.CREDIT
        then s.khata ++ [saleDebitEntry kid bill c] else s.khata) := by
  unfold saveBill
  dsimp only
  split <;> simp_all

theorem cancelBill_of_none {s : StoreState} {billId : String}
    (h : s.bills.find? (fun b => b.id = billId) = none) :
    cancelBill s billId = s := by
  unfold cancelBill
  rw [h]

theorem cancelBill_of_cancelled {s : StoreState} {billId : String} {bill : Bill}
    (h : s.bills.find? (fun b => b.id = billId) = some bill)
    (hst : bill.status = BillStatus.CANCELLED) :
    cancelBill s billId = s := by
  unfold cancelBill
  rw [h]
  simp [hst]

/-- `cancelBill` on a found, not-yet-cancelled bill: the full record of
state changes made by steps 1–3 of the source. -/
theorem cancelBill_of_found {s : StoreState} {billId : String} {bill : Bill}
    (h : s.bills.find? (fun b => b.id = billId) = some bill)
    (hst : bill.status ≠ BillStatus.CANCELLED) :
    cancelBill s billId =
      { s with
          bills := replaceFirstBill billId { bill with status := BillStatus.CANCELLED } s.bills
          products := applyItemsCancel s.products bill.items
          khata :=
            if bill.paymentMode = PaymentMode.CREDIT then
              s.khata.filter (fun k => k.billId ≠ some billId)
            else s.khata } := by
  unfold cancelBill
  rw [h]
  simp [hst]

/-! ### Stock-adjustment algebra -/

theorem adjustStock_of_absent {id : String} {delta : ℤ} :
    ∀ {ps : List Product}, (∀ p ∈ ps, p.id ≠ id) → adjustStock id delta ps = ps := by
  intro ps
  induction ps with
  | nil => intro _; rfl
  | cons p t ih =>
    intro h
    have hp : p.id ≠ id := h p (List.mem_cons_self p t)
    simp only [adjustStock, if_neg hp]
    rw [ih fun q hq => h q (List.mem_cons_of_mem p hq)]

theorem adjustStock_cons_pos {id : String} {delta : ℤ} {p : Product}
    {ps : List Product} (h : p.id = id) :
    adjustStock id delta (p :: ps) = { p with stock := p.stock + delta } :: ps := by
  simp only [adjustStock, if_pos h]

theorem adjustStock_cons_neg {id : String} {delta : ℤ} {p : Product}
    {ps : List Product} (h : ¬p.id = id) :
    adjustStock id delta (p :: ps) = p :: adjustStock id delta ps := by
  simp only [adjustStock, if_neg h]

theorem adjustStock_adjustStock_same (id : String) (d₁ d₂ : ℤ) :
    ∀ ps : List Product,
      adjustStock id d₂ (adjustStock id d₁ ps) = adjustStock id (d₁ + d₂) ps := by
  intro ps
  induction ps with
  | nil => rfl
  | cons p t ih =>
    by_cases hp : p.id = id
    · rw [adjustStock_cons_pos hp, adjustStock_cons_pos (show ({ p with stock := p.stock + d₁ } : Product).id = id from hp),
        adjustStock_cons_pos hp, add_assoc]
    · rw [adjustStock_cons_neg hp, adjustStock_cons_neg hp, adjustStock_cons_neg hp, ih]

theorem adjustStock_zero (id : String) :
    ∀ ps : List Product, adjustStock id 0 ps = ps := by
  intro ps
  induction ps with
  | nil => rfl
  | cons p t ih =>
    by_cases hp : p.id = id
    · rw [adjustStock_cons_pos hp, add_zero]
    · rw [adjustStock_cons_neg hp, ih]

theorem adjustStock_comm (i₁ i₂ : String) (d₁ d₂ : ℤ) :
    ∀ ps : List Product,
      adjustStock i₁ d₁ (adjustStock i₂ d₂ ps) =
        adjustStock i₂ d₂ (adjustStock i₁ d₁ ps) := by
  intro ps
  induction ps with
  | nil => rfl
  | cons p t ih =>
    by_cases h2 : p.id = i₂
    · by_cases h1 : p.id = i₁
      · rw [adjustStock_cons_pos h2, adjustStock_cons_pos h1,
          adjustStock_cons_pos (show ({ p with stock := p.stock + d₂ } : Product).id = i₁ from h1),
          adjustStock_cons_pos (show ({ p with stock := p.stock + d₁ } : Product).id = i₂ from h2)]
        dsimp only
        rw [add_right_comm]
      · rw [adjustStock_cons_pos h2, adjustStock_cons_neg h1,
          adjustStock_cons_neg (show ¬({ p with stock := p.stock + d₂ } : Product).id = i₁ from h1),
          adjustStock_cons_pos h2]
    · by_cases h1 : p.id = i₁
      · rw [adjustStock_cons_pos h1, adjustStock_cons_neg h2,
          adjustStock_cons_neg (show ¬({ p with stock := p.stock + d₁ } : Product).id = i₂ from h2),
          adjustStock_cons_pos h1]
      · rw [adjustStock_cons_neg h2, adjustStock_cons_neg h1,
          adjustStock_cons_neg h1, adjustStock_cons_neg h2, ih]

theorem adjustStock_applyItemsSale_comm (id : String) (delta : ℤ) :
    ∀ (items : List CartItem) (ps : List Product),
      adjustStock id delta (applyItemsSale ps items) =
        applyItemsSale (adjustStock id delta ps) items := by
  intro items
  induction items with
  | nil => intro ps; rfl
  | cons it t ih =>
    intro ps
    show adjustStock id delta (applyItemsSale (adjustStock it.id (-(it.qty : ℤ)) ps) t) = _
    rw [ih, adjustStock_comm]
    rfl

/-- Recording a bill's inventory subtraction and then cancelling it restores
the product list exactly. -/
theorem applyItemsCancel_applyItemsSale :
    ∀ (items : List CartItem) (ps : List Product),
      applyItemsCancel (applyItemsSale ps items) items = ps := by
  intro items
  induction items with
  | nil => intro ps; rfl
  | cons it t ih =>
    intro ps
    show applyItemsCancel
        (adjustStock it.id ((it.qty : ℤ))
          (applyItemsSale (adjustStock it.id (-(it.qty : ℤ)) ps) t)) t = ps
    rw [adjustStock_applyItemsSale_comm, adjustStock_adjustStock_same,
      neg_add_cancel, adjustStock_zero, ih]

/-! ### Helper lemmas about `calculateTotals` -/

theorem totalsStep_eq (acc : ℚ × ℚ × ℚ) (item : CartItem) :
    totalsStep acc item =
      (acc.1 + specLineTaxable item, acc.2.1 + specLineTax item,
        acc.2.2 + item.discount) := by
  unfold totalsStep specLineTax specLineTaxable
  by_cases h : item.gstIncluded <;> simp [h]

theorem totals_foldl :
    ∀ (cart : List CartItem) (a b c : ℚ),
      cart.foldl totalsStep (a, b, c) =
        (a + (cart.map specLineTaxable).sum, b + (cart.map specLineTax).sum,
          c + (cart.map CartItem.discount).sum) := by
  intro cart
  induction cart with
  | nil => intro a b c; simp
  | cons it t ih =>
    intro a b c
    rw [List.foldl_cons, totalsStep_eq, ih]
    simp [add_assoc]

/-- When no pre-existing bill shares the new bill's id, the bill just saved
is the first (and only) match for its id afterwards. -/
theorem saveBill_find_self (s : StoreState) (bill : Bill)
    (customer : Option Customer) (kid : String)
    (hfresh : ∀ b ∈ s.bills, b.id ≠ bill.id) :
    (saveBill s bill customer kid).1.bills.find? (fun b => b.id = bill.id) =
      some bill := by
  rw [saveBill_bills, List.find?_append]
  have h1 : s.bills.find? (fun b => b.id = bill.id) = none :=
    List.find?_eq_none.mpr fun x hx => by simpa using hfresh x hx
  rw [h1]
  simp

/-! ### Claim theorems -/

/-- Claim C2: for every day close with actual cash `A` and bank deposit `D`,
the close is rejected when `D > A` with no state change; otherwise the
persisted entry satisfies
`expectedCash = openingBalance + grossSales − (onlineSales + creditSales + expenses)`
over the values in effect at closing, `closingBalance = A − D`,
`difference = A − expectedCash`, and `isClosed = true`. -/
theorem closeDay_validates_and_computes
    (ledger : List LedgerEntry) (todayLedger : LedgerEntry) (selectedDate : ℕ)
    (opening gross online credit expenses : ℚ) (actualCashEmpty : Bool)
    (actualCash bankDeposit : ℚ) (notes : Option String) (isAutoMode : Bool) :
    (bankDeposit > actualCash →
      handleCloseDay ledger todayLedger selectedDate opening gross online credit
        expenses actualCashEmpty actualCash bankDeposit notes isAutoMode = ledger) ∧
    (actualCashEmpty = false → bankDeposit ≤ actualCash →
      handleCloseDay ledger todayLedger selectedDate opening gross online credit
          expenses actualCashEmpty actualCash bankDeposit notes isAutoMode =
        saveLedgerDay ledger (closingEntry todayLedger selectedDate opening gross
          online credit expenses actualCash bankDeposit notes isAutoMode) ∧
      (closingEntry todayLedger selectedDate opening gross online credit expenses
          actualCash bankDeposit notes isAutoMode).openingBalance = opening ∧
      (closingEntry todayLedger selectedDate opening gross online credit expenses
          actualCash bankDeposit notes isAutoMode).grossSales = gross ∧
      (closingEntry todayLedger selectedDate opening gross online credit expenses
          actualCash bankDeposit notes isAutoMode).onlineSales = online ∧
      (closingEntry todayLedger selectedDate opening gross online credit expenses
          actualCash bankDeposit notes isAutoMode).creditSales = credit ∧
      (closingEntry todayLedger selectedDate opening gross online credit expenses
          actualCash bankDeposit notes isAutoMode).expenses = expenses ∧
      (closingEntry todayLedger selectedDate opening gross online credit expenses
          actualCash bankDeposit notes isAutoMode).expectedCash =
        opening + gross - (online + credit + expenses) ∧
      (closingEntry todayLedger selectedDate opening gross online credit expenses
          actualCash bankDeposit notes isAutoMode).closingBalance =
        actualCash - bankDeposit ∧
      (closingEntry todayLedger selectedDate opening gross online credit expenses
          actualCash bankDeposit notes isAutoMode).difference =
        actualCash -
          (closingEntry todayLedger selectedDate opening gross online credit
            expenses actualCash bankDeposit notes isAutoMode).expectedCash ∧
      (closingEntry todayLedger selectedDate opening gross online credit expenses
          actualCash bankDeposit notes isAutoMode).isClosed = true ∧
      (closingEntry todayLedger selectedDate opening gross online credit expenses
          actualCash bankDeposit notes isAutoMode).date = selectedDate) := by
  constructor
  · intro h
    unfold handleCloseDay
    cases actualCashEmpty <;> simp [h]
  · intro hEmpty hLe
    subst hEmpty
    refine ⟨?_, rfl, rfl, rfl, rfl, rfl, rfl, rfl, rfl, rfl, rfl⟩
    unfold handleCloseDay
    simp [not_lt.mpr hLe]

/-- Claim C3: the ledger holds at most one entry per date — `saveLedgerDay`
replaces any stored row with the same date — and after a close, `get` for
that date returns the stored row verbatim, unaffected by bills recorded
afterward (`saveBill` never touches the ledger collection). -/
theorem ledger_upsert_and_close_immutability
    (ledger : List LedgerEntry) (entry : LedgerEntry) :
    ((ledger.map LedgerEntry.date).Nodup →
      ((saveLedgerDay ledger entry).map LedgerEntry.date).Nodup) ∧
    (∀ x ∈ saveLedgerDay ledger entry, x.date = entry.date → x = entry) ∧
    entry ∈ saveLedgerDay ledger entry ∧
    (∀ x ∈ ledger, x.date ≠ entry.date → x ∈ saveLedgerDay ledger entry) ∧
    getLedgerEntry (saveLedgerDay ledger entry) entry.date = entry ∧
    (∀ (l2 : List LedgerEntry) (d : ℕ) (e : LedgerEntry),
      l2.find? (fun x => x.date = d) = some e → getLedgerEntry l2 d = e) ∧
    (∀ (s : StoreState) (bill : Bill) (customer : Option Customer) (kid : String),
      (saveBill s bill customer kid).1.ledger = s.ledger) := by
  have hfilter : ∀ x ∈ ledger.filter (fun l => l.date ≠ entry.date),
      x.date ≠ entry.date := by
    intro x hx
    have := List.of_mem_filter hx
    simpa using this
  refine ⟨?_, ?_, ?_, ?_, ?_, ?_, ?_⟩
  · intro h
    unfold saveLedgerDay
    rw [List.map_append]
    refine List.Nodup.append ?_ (by simp) ?_
    · exact (((List.filter_sublist ledger).map LedgerEntry.date).nodup h)
    · intro a ha hb
      simp only [List.map_cons, List.map_nil, List.mem_singleton] at hb
      subst hb
      obtain ⟨x, hx, hxa⟩ := List.mem_map.mp ha
      exact hfilter x hx hxa
  · intro x hx hdate
    rcases List.mem_append.mp hx with hx | hx
    · exact absurd hdate (hfilter x hx)
    · simpa using hx
  · exact List.mem_append_right _ (by simp)
  · intro x hx hdate
    exact List.mem_append_left _ (List.mem_filter.mpr ⟨hx, by simpa using hdate⟩)
  · apply getLedgerEntry_stored
    unfold saveLedgerDay
    rw [List.find?_append]
    have h1 : (ledger.filter (fun l => l.date ≠ entry.date)).find?
        (fun x => x.date = entry.date) = none :=
      List.find?_eq_none.mpr fun x hx => by simpa using hfilter x hx
    rw [h1]
    simp
  · intro l2 d e h
    exact getLedgerEntry_stored h
  · intro s bill customer kid
    exact saveBill_ledger s bill customer kid

/-- Claim C4: for a date `D` with no stored ledger row, `getLedgerEntry`
returns an unstored entry whose opening balance is the closing balance of
the latest stored entry with date `< D` (0 when none exists), whose sales
and cash figures are all 0, and which is not closed. -/
theorem getLedgerEntry_unstored_chains_opening
    (ledger : List LedgerEntry) (D : ℕ)
    (hnone : ∀ e ∈ ledger, e.date ≠ D)
    (hnodup : (ledger.map LedgerEntry.date).Nodup) :
    ((getLedgerEntry ledger D).date = D ∧
      (getLedgerEntry ledger D).grossSales = 0 ∧
      (getLedgerEntry ledger D).onlineSales = 0 ∧
      (getLedgerEntry ledger D).creditSales = 0 ∧
      (getLedgerEntry ledger D).expenses = 0 ∧
      (getLedgerEntry ledger D).expectedCash = 0 ∧
      (getLedgerEntry ledger D).actualCash = 0 ∧
      (getLedgerEntry ledger D).difference = 0 ∧
      (getLedgerEntry ledger D).depositedToBank = 0 ∧
      (getLedgerEntry ledger D).closingBalance = 0 ∧
      (getLedgerEntry ledger D).isClosed = false) ∧
    (∀ e ∈ ledger, e.date < D →
      (∀ x ∈ ledger, x.date < D → x.date ≤ e.date) →
      (getLedgerEntry ledger D).openingBalance = e.closingBalance) ∧
    ((∀ x ∈ ledger, ¬x.date < D) →
      (getLedgerEntry ledger D).openingBalance = 0) := by
  have hfind := find?_none_of_dates_ne hnone
  have hperm := sortByDateDesc_perm ledger
  have hsorted := sortByDateDesc_sorted ledger
  unfold getLedgerEntry
  rw [hfind]
  refine ⟨⟨rfl, rfl, rfl, rfl, rfl, rfl, rfl, rfl, rfl, rfl, rfl⟩, ?_, ?_⟩
  · intro e he heD hmax
    rcases hf : (sortByDateDesc ledger).find? (fun l => l.date < D) with _ | f
    · exfalso
      have := List.find?_eq_none.mp hf e (hperm.mem_iff.mpr he)
      simp at this
      omega
    · obtain ⟨hfD, hfmax⟩ := find?_lt_isMax hsorted hf
      have hfmem : f ∈ ledger :=
        hperm.mem_iff.mp (List.mem_of_find?_eq_some hf)
      have h1 : f.date ≤ e.date := hmax f hfmem hfD
      have h2 : e.date ≤ f.date :=
        hfmax e (hperm.mem_iff.mpr he) heD
      have hdate : f.date = e.date := le_antisymm h1 h2
      have : f = e :=
        List.inj_on_of_nodup_map hnodup hfmem he hdate
      subst this
      simp only [hf]
  · intro hnolt
    rcases hf : (sortByDateDesc ledger).find? (fun l => l.date < D) with _ | f
    · simp only [hf]
    · exfalso
      have hfmem : f ∈ ledger :=
        hperm.mem_iff.mp (List.mem_of_find?_eq_some hf)
      have := List.find?_some hf
      simp at this
      exact hnolt f hfmem this

/-- Claim C5: `calculateTotals` computes the per-line taxable value and tax
according to the inclusive/exclusive GST formulas, sums them (and the
per-line discounts) across the cart, and rounds the grand total to the
nearest integer currency unit. -/
theorem calculateTotals_matches_per_line_formulas (cart : List CartItem) :
    (calculateTotals cart).1 = (cart.map specLineTaxable).sum ∧
    (calculateTotals cart).2.1 = (cart.map specLineTax).sum ∧
    (calculateTotals cart).2.2.1 = (cart.map CartItem.discount).sum ∧
    (calculateTotals cart).2.2.2 =
      jsRound ((cart.map specLineTaxable).sum + (cart.map specLineTax).sum -
        (cart.map CartItem.discount).sum) ∧
    (∀ item : CartItem, item.gstIncluded = true →
      specLineTaxable item =
        item.sellingPrice * item.qty / (1 + item.gstPercent / 100) ∧
      specLineTax item = item.sellingPrice * item.qty - specLineTaxable item) ∧
    (∀ item : CartItem, item.gstIncluded = false →
      specLineTaxable item = item.sellingPrice * item.qty ∧
      specLineTax item = specLineTaxable item * (item.gstPercent / 100)) := by
  have hfold := totals_foldl cart 0 0 0
  refine ⟨?_, ?_, ?_, ?_, ?_, ?_⟩
  · unfold calculateTotals
    rw [hfold]
    simp
  · unfold calculateTotals
    rw [hfold]
    simp
  · unfold calculateTotals
    rw [hfold]
    simp
  · unfold calculateTotals
    rw [hfold]
    simp
  · intro item h
    unfold specLineTax specLineTaxable
    simp [h]
  · intro item h
    unfold specLineTax specLineTaxable
    simp [h]

/-- Claim C1 (amended): a `saveBill` call with a CREDIT bill and no customer
reports the failure synchronously (it throws) and leaves the khata and
customers collections unchanged, but the bill has already been appended and
each line's quantity subtracted from stock before the failure — steps 1–3
run before the step-4 validation, so the rejection is not free of store
mutation. -/
theorem saveBill_credit_no_customer_throws_after_mutation
    (s : StoreState) (bill : Bill) (kid : String)
    (hmode : bill.paymentMode = PaymentMode.CREDIT) :
    (saveBill s bill none kid).2 = true ∧
    (saveBill s bill none kid).1.bills = s.bills ++ [bill] ∧
    (saveBill s bill none kid).1.products = applyItemsSale s.products bill.items ∧
    (saveBill s bill none kid).1.customers = s.customers ∧
    (saveBill s bill none kid).1.khata = s.khata ∧
    (saveBill s bill none kid).1.ledger = s.ledger := by
  refine ⟨?_, saveBill_bills s bill none kid, saveBill_products s bill none kid,
    saveBill_none_customers s bill kid, saveBill_none_khata s bill kid,
    saveBill_ledger s bill none kid⟩
  unfold saveBill
  dsimp only
  rw [if_pos (Or.inl hmode)]

/-- Claim C6: recording a bill (which subtracts each line's quantity from
stock) and then cancelling that bill (which adds it back) returns the
products collection — in particular every product's stock — to exactly its
original value. -/
theorem record_then_cancel_restores_stock
    (s : StoreState) (bill : Bill) (customer : Option Customer) (kid : String)
    (hfresh : ∀ b ∈ s.bills, b.id ≠ bill.id)
    (hstatus : bill.status ≠ BillStatus.CANCELLED) :
    (cancelBill (saveBill s bill customer kid).1 bill.id).products = s.products := by
  have hfind := saveBill_find_self s bill customer kid hfresh
  rw [cancelBill_of_found hfind hstatus]
  dsimp only
  rw [saveBill_products, applyItemsCancel_applyItemsSale]

/-- Claim C7: `cancelBill` is a no-op when the bill is absent or already
CANCELLED (so a second cancellation changes nothing — no second inventory
restoration, no second khata reversal); otherwise it flips the bill's
status to CANCELLED without deleting the bill or its items. -/
theorem cancelBill_noop_and_idempotent (s : StoreState) (billId : String) :
    (s.bills.find? (fun b => b.id = billId) = none → cancelBill s billId = s) ∧
    (∀ bill, s.bills.find? (fun b => b.id = billId) = some bill →
      bill.status = BillStatus.CANCELLED → cancelBill s billId = s) ∧
    cancelBill (cancelBill s billId) billId = cancelBill s billId ∧
    (∀ bill, s.bills.find? (fun b => b.id = billId) = some bill →
      bill.status ≠ BillStatus.CANCELLED →
      (cancelBill s billId).bills.find? (fun b => b.id = billId) =
        some { bill with status := BillStatus.CANCELLED } ∧
      (cancelBill s billId).bills.length = s.bills.length) := by
  refine ⟨fun h => cancelBill_of_none h,
    fun bill hfind hst => cancelBill_of_cancelled hfind hst, ?_, ?_⟩
  · rcases hfind : s.bills.find? (fun b => b.id = billId) with _ | bill
    · rw [cancelBill_of_none hfind, cancelBill_of_none hfind]
    · by_cases hst : bill.status = BillStatus.CANCELLED
      · rw [cancelBill_of_cancelled hfind hst, cancelBill_of_cancelled hfind hst]
      · have hid : ({ bill with status := BillStatus.CANCELLED } : Bill).id = billId := by
          simpa using List.find?_some hfind
        have h2 : (cancelBill s billId).bills.find? (fun b => b.id = billId) =
            some { bill with status := BillStatus.CANCELLED } := by
          rw [cancelBill_of_found hfind hst]
          exact find?_replaceFirstBill hid hfind
        exact cancelBill_of_cancelled h2 rfl
  · intro bill hfind hst
    have hid : ({ bill with status := BillStatus.CANCELLED } : Bill).id = billId := by
      simpa using List.find?_some hfind
    constructor
    · rw [cancelBill_of_found hfind hst]
      exact find?_replaceFirstBill hid hfind
    · rw [cancelBill_of_found hfind hst]
      exact replaceFirstBill_length billId _ s.bills

/-- Claim C8: cancelling a CREDIT bill hard-deletes every khata entry whose
`billId` matches the bill (no offsetting entry) and leaves payment entries
(which carry no `billId`) untouched; in the concrete history where a
payment of 500 was recorded against the 500-rupee credit bill before
cancellation, the customer's net balance ends up negative. -/
theorem cancelBill_hard_deletes_bill_entries (s : StoreState) (billId : String) :
    (∀ bill, s.bills.find? (fun b => b.id = billId) = some bill →
      bill.status ≠ BillStatus.CANCELLED →
      bill.paymentMode = PaymentMode.CREDIT →
      (cancelBill s billId).khata =
        s.khata.filter (fun k => k.billId ≠ some billId) ∧
      ∀ k ∈ s.khata, k.billId = none → k ∈ (cancelBill s billId).khata) ∧
    balanceFor (cancelBill overpayState "B1").khata "CU1" < 0 := by
  constructor
  · intro bill hfind hst hmode
    have hkh : (cancelBill s billId).khata =
        s.khata.filter (fun k => k.billId ≠ some billId) := by
      rw [cancelBill_of_found hfind hst]
      dsimp only
      rw [if_pos hmode]
    refine ⟨hkh, ?_⟩
    intro k hk hknone
    rw [hkh]
    exact List.mem_filter.mpr ⟨hk, by simp [hknone]⟩
  · have h1 : (cancelBill overpayState "B1").khata =
        [{ id := "K2", billId := none, customerId := "CU1", amount := 500
           , type := KhataType.CREDIT, date := 1
           , description := "Payment Received" }] := by decide
    rw [h1]
    simp only [balanceFor, List.foldl]
    rw [if_pos trivial, if_neg (by decide)]
    norm_num

/-- Claim C9: the stock adjustment adds the signed delta to the first
matching product with no floor clamp (so a sale can drive stock negative,
as the concrete two-of-one-in-stock sale shows), and is a silent no-op,
leaving the collection unchanged, when no product carries the id. -/
theorem adjustStock_no_clamp_and_silent_noop :
    (∀ (ps : List Product) (id : String) (delta : ℤ),
      (∀ p ∈ ps, p.id ≠ id) → adjustStock id delta ps = ps) ∧
    (∀ (pre post : List Product) (p : Product) (delta : ℤ),
      (∀ q ∈ pre, q.id ≠ p.id) →
      adjustStock p.id delta (pre ++ p :: post) =
        pre ++ { p with stock := p.stock + delta } :: post) ∧
    (saveBill negState negBill none "K1").1.products.map Product.stock = [-1] ∧
    (∀ z ∈ (saveBill negState negBill none "K1").1.products.map Product.stock,
      z < 0) := by
  refine ⟨fun ps id delta h => adjustStock_of_absent h, ?_, ?_, ?_⟩
  · intro pre
    induction pre with
    | nil =>
      intro post p delta _
      exact adjustStock_cons_pos rfl
    | cons q t ih =>
      intro post p delta h
      have hq : ¬q.id = p.id := h q (List.mem_cons_self q t)
      rw [List.cons_append, adjustStock_cons_neg hq,
        ih post p delta fun r hr => h r (List.mem_cons_of_mem q hr),
        List.cons_append]
  · decide
  · decide

/-- Claim C10: a bill whose `status` is CREDIT but whose payment mode is
not CREDIT (with a customer) gets a khata DEBIT entry from `saveBill` —
the khata step triggers on payment mode *or* status — yet `cancelBill`
removes no khata entry for it, because the reversal triggers on payment
mode only, so the customer's debit survives the cancellation. -/
theorem status_credit_debit_survives_cancellation
    (s : StoreState) (bill : Bill) (c : Customer) (kid : String)
    (hstatus : bill.status = BillStatus.CREDIT)
    (hmode : bill.paymentMode ≠ PaymentMode.CREDIT)
    (hfresh : ∀ b ∈ s.bills, b.id ≠ bill.id) :
    (saveBill s bill (some c) kid).1.khata =
      s.khata ++ [saleDebitEntry kid bill c] ∧
    (saleDebitEntry kid bill c).type = KhataType.DEBIT ∧
    (cancelBill (saveBill s bill (some c) kid).1 bill.id).khata =
      (saveBill s bill (some c) kid).1.khata ∧
    saleDebitEntry kid bill c ∈
      (cancelBill (saveBill s bill (some c) kid).1 bill.id).khata := by
  have hkh : (saveBill s bill (some c) kid).1.khata =
      s.khata ++ [saleDebitEntry kid bill c] := by
    rw [saveBill_some_khata, if_pos (Or.inr hstatus)]
  have hst' : bill.status ≠ BillStatus.CANCELLED := by
    rw [hstatus]
    intro h
    cases h
  have hfind := saveBill_find_self s bill (some c) kid hfresh
  have hcancel : (cancelBill (saveBill s bill (some c) kid).1 bill.id).khata =
      (saveBill s bill (some c) kid).1.khata := by
    rw [cancelBill_of_found hfind hst']
    dsimp only
    rw [if_neg hmode]
  refine ⟨hkh, rfl, hcancel, ?_⟩
  rw [hcancel, hkh]
  exact List.mem_append_right _ (by simp)

/-- Claim C1 counterexample: at the concrete state `c1State` and CREDIT
bill `c1Bill` with no customer, `saveBill` does throw, but the bills and
products collections have already been mutated — refuting the claim that
the operation is rejected before any store mutation with no partial state
change. -/
theorem saveBill_credit_no_customer_mutates_store :
    (saveBill c1State c1Bill none "K1").2 = true ∧
    (saveBill c1State c1Bill none "K1").1.bills ≠ c1State.bills ∧
    (saveBill c1State c1Bill none "K1").1.products ≠ c1State.products := by
  decide

/-! ### Witnesses -/

/-- Witness for claim C1's amended theorem at the concrete credit sale. -/
theorem saveBill_credit_no_customer_throws_after_mutation_witness :
    (saveBill c1State c1Bill none "K1").2 = true ∧
    (saveBill c1State c1Bill none "K1").1.khata = c1State.khata := by
  have h := saveBill_credit_no_customer_throws_after_mutation c1State c1Bill "K1" rfl
  exact ⟨h.1, h.2.2.2.2.1⟩

/-- Witness for claim C2 at a concrete close: actual cash 5000, deposit
2000, opening 100, gross 500, online 50, credit 30, expenses 20. -/
theorem closeDay_validates_and_computes_witness :
    handleCloseDay [] blankEntry 10 100 500 50 30 20 false 5000 2000 none true =
      saveLedgerDay []
        (closingEntry blankEntry 10 100 500 50 30 20 5000 2000 none true) ∧
    (closingEntry blankEntry 10 100 500 50 30 20 5000 2000 none true).expectedCash
      = 500 ∧
    (closingEntry blankEntry 10 100 500 50 30 20 5000 2000 none true).closingBalance
      = 3000 := by
  have h := (closeDay_validates_and_computes [] blankEntry 10 100 500 50 30 20
    false 5000 2000 none true).2 rfl (by norm_num)
  refine ⟨h.1, ?_, ?_⟩
  · rw [h.2.2.2.2.2.2.1]
    norm_num
  · rw [h.2.2.2.2.2.2.2.1]
    norm_num

/-- Witness for claim C3 at a concrete upsert into the empty ledger. -/
theorem ledger_upsert_and_close_immutability_witness :
    ((saveLedgerDay [] blankEntry).map LedgerEntry.date).Nodup ∧
    getLedgerEntry (saveLedgerDay [] blankEntry) blankEntry.date = blankEntry := by
  have h := ledger_upsert_and_close_immutability [] blankEntry
  exact ⟨h.1 (by simp), h.2.2.2.2.1⟩

/-- Witness for claim C4: with closed rows for dates 1 and 3, the derived
entry for date 4 opens with date 3's closing balance 50. -/
theorem getLedgerEntry_unstored_chains_opening_witness :
    (getLedgerEntry [closedA, closedB] 4).openingBalance = 50 ∧
    (getLedgerEntry [closedA, closedB] 4).isClosed = false := by
  have h := getLedgerEntry_unstored_chains_opening [closedA, closedB] 4
    (by decide) (by decide)
  refine ⟨?_, h.1.2.2.2.2.2.2.2.2.2.2⟩
  have := h.2.1 closedB (by simp) (by decide) (by decide)
  rw [this]
  rfl

/-- Witness for claim C5 at the inclusive-tax sample line (price 118,
GST 18% included): taxable 100, tax 18, grand total 118. -/
theorem calculateTotals_matches_per_line_formulas_witness :
    inclusiveItem.gstIncluded = true ∧
    specLineTaxable inclusiveItem = 100 ∧
    specLineTax inclusiveItem = 18 ∧
    (calculateTotals [inclusiveItem]).2.2.2 = 118 := by
  have h := calculateTotals_matches_per_line_formulas [inclusiveItem]
  have hp := h.2.2.2.2.1 inclusiveItem rfl
  have h1 : specLineTaxable inclusiveItem = 100 := by
    rw [hp.1]
    norm_num [inclusiveItem]
  have h2 : specLineTax inclusiveItem = 18 := by
    rw [hp.2, h1]
    norm_num [inclusiveItem]
  refine ⟨rfl, h1, h2, ?_⟩
  rw [h.2.2.2.1]
  simp only [List.map_cons, List.map_nil, List.sum_cons, List.sum_nil, h1, h2]
  norm_num [jsRound, inclusiveItem]

/-- Witness for claim C6 at the concrete two-unit sale and cancellation. -/
theorem record_then_cancel_restores_stock_witness :
    (cancelBill (saveBill negState negBill none "K1").1 negBill.id).products =
      negState.products :=
  record_then_cancel_restores_stock negState negBill none "K1" (by decide)
    (by decide)

/-- Witness for claim C7: cancelling in an empty store is a no-op, and a
real cancellation flips the stored bill's status to CANCELLED. -/
theorem cancelBill_noop_and_idempotent_witness :
    cancelBill emptyState "BX" = emptyState ∧
    (cancelBill (saveBill negState negBill none "K1").1 "B2").bills.find?
        (fun b => b.id = "B2") =
      some { negBill with status := BillStatus.CANCELLED } := by
  refine ⟨(cancelBill_noop_and_idempotent emptyState "BX").1 rfl, ?_⟩
  exact ((cancelBill_noop_and_idempotent (saveBill negState negBill none "K1").1
    "B2").2.2.2 negBill (by decide) (by decide)).1

/-- Witness for claim C8: cancelling the credit bill in the overpayment
history removes exactly the entries tagged with its bill id. -/
theorem cancelBill_hard_deletes_bill_entries_witness :
    (cancelBill overpayState "B1").khata =
      overpayState.khata.filter (fun k => k.billId ≠ some "B1") :=
  ((cancelBill_hard_deletes_bill_entries overpayState "B1").1 creditBill
    (by decide) (by decide) (by decide)).1

/-- Witness for claim C9: adjusting an id absent from the inventory is a
no-op, and adjusting a present product adds the delta to its stock. -/
theorem adjustStock_no_clamp_and_silent_noop_witness :
    adjustStock "ZZZ" 5 [sampleProduct] = [sampleProduct] ∧
    adjustStock sampleProduct.id 3 [sampleProduct] =
      [{ sampleProduct with stock := sampleProduct.stock + 3 }] := by
  refine ⟨adjustStock_no_clamp_and_silent_noop.1 [sampleProduct] "ZZZ" 5
    (by decide), ?_⟩
  have h := adjustStock_no_clamp_and_silent_noop.2.1 [] [] sampleProduct 3
    (by decide)
  simpa using h

/-- Witness for claim C10 at the concrete CASH bill with CREDIT status. -/
theorem status_credit_debit_survives_cancellation_witness :
    (saveBill emptyState statusCreditBill (some asha) "K3").1.khata =
      [saleDebitEntry "K3" statusCreditBill asha] ∧
    (cancelBill (saveBill emptyState statusCreditBill (some asha) "K3").1
        statusCreditBill.id).khata =
      (saveBill emptyState statusCreditBill (some asha) "K3").1.khata := by
  have h := status_credit_debit_survives_cancellation emptyState statusCreditBill
    asha "K3" rfl (by decide) (by decide)
  refine ⟨?_, h.2.2.1⟩
  rw [h.1]
  rfl

end POS
